import Mathlib

/-!
Verification of the jaynes remote-job launch orchestrator
(`src/jaynes/jaynes.py`) against its natural-language specification.

The Python source is shallowly embedded: the `Jaynes` orchestrator instance
becomes the `JState` record, each method becomes a pure function from state
(plus keyword configuration) to a new state together with its observable
output, and the process-wide `RUN` singleton plus the configuration dicts of
`config()` become an explicit heap of association lists so that Python's
reference aliasing (shallow `dict.copy`) is captured faithfully.
-/

/-! ## Python string primitives -/

/-- The six whitespace characters stripped by Python's `str.strip()`. -/
def isPySpace (c : Char) : Bool :=
  c = ' ' || c = '\t' || c = '\n' || c = '\r' || c = '\x0b' || c = '\x0c'

/-- Right strip on character lists: drop trailing `isPySpace` characters. -/
def rstripAux (l : List Char) : List Char :=
  (l.reverse.dropWhile isPySpace).reverse

/-- Python `str.strip()` with no argument: remove leading and trailing
whitespace. -/
def pyStrip (s : String) : String :=
  ⟨rstripAux (s.data.dropWhile isPySpace)⟩

/-- Python `sep.join(parts)`. -/
def pyJoin (sep : String) : List String → String
  | [] => ""
  | [x] => x
  | x :: xs => x ++ sep ++ pyJoin sep xs

/-- `s.startswith(pre)`, computed on the character list. -/
def pyStartsWith (s pre : String) : Bool :=
  s.data.take pre.data.length = pre.data

/-- `s.endswith(suf)`, computed on the character list. -/
def pyEndsWith (s suf : String) : Bool :=
  s.data.drop (s.data.length - suf.data.length) = suf.data

/-- `os.path.join` restricted to two components on a posix host, as used by
the source (`os.path.join(launch_dir, "jaynes-launch.log")`). -/
def pathJoin (a b : String) : String :=
  if pyStartsWith b "/" then b
  else if a = "" || pyEndsWith a "/" then a ++ b
  else a ++ "/" ++ b

/-- Longest common prefix of two character lists (the margin-merging loop of
`textwrap.dedent`). -/
def lcp : List Char → List Char → List Char
  | x :: xs, y :: ys => if x = y then x :: lcp xs ys else []
  | _, _ => []

/-- A character counted as indentation by `textwrap.dedent` (space or tab). -/
def isIndentChar (c : Char) : Bool := c = ' ' || c = '\t'

/-- Split a character list on a separator, keeping empty segments
(Python `text.split(sep)` semantics). -/
def splitChars (sep : Char) : List Char → List (List Char)
  | [] => [[]]
  | x :: xs =>
    match splitChars sep xs with
    | [] => [[]]
    | y :: ys => if x = sep then [] :: y :: ys else (x :: y) :: ys

/-- `text.split("\n")` as a list of strings. -/
def pySplitNL (s : String) : List String :=
  (splitChars '\n' s.data).map String.mk

/-- `textwrap.dedent`: lines consisting solely of spaces/tabs are normalized
to empty; the longest common space/tab margin of the remaining non-empty
lines is removed from every line. -/
def dedent (text : String) : String :=
  let lines := pySplitNL text
  let blanked := lines.map fun l =>
    if l ≠ "" && l.data.all isIndentChar then "" else l
  let indents := (blanked.filter fun l => l.data.any fun c => !isIndentChar c).map
    fun l => l.data.takeWhile isIndentChar
  let margin : List Char :=
    match indents with
    | [] => []
    | i :: is => is.foldl lcp i
  let dedented :=
    if margin.isEmpty then blanked
    else blanked.map fun l =>
      if l.data.take margin.length = margin then ⟨l.data.drop margin.length⟩ else l
  pyJoin "\n" dedented

/-- Python `x or ""` for an optional string argument: both `None` and the
empty string collapse to the empty string. -/
def orEmpty : Option String → String
  | none => ""
  | some s => s

/-! ## Data model: mounts, runners, orchestrator state -/

/-- A mount descriptor.  `id` models Python object identity (used by the
`_uploaded` membership checks).  `host_setup` and `upload_script` are
`Option` because the source guards every access with
`hasattr(m, "host_setup")` / `hasattr(m, "upload_script")`; a missing
attribute is `none`. -/
structure Mount where
  id : Nat
  host_setup : Option String := none
  upload_script : Option String := none
deriving DecidableEq, Repr

/-- A runner instance, reduced to the three shell fragments the orchestrator
reads (`setup_script`, `run_script`, `post_script`). -/
structure Runner where
  setup_script : String := ""
  run_script : String := ""
  post_script : String := ""
deriving DecidableEq, Repr

/-- The value stored in the `host_unpacked` attribute: Python `None`, a bool
(`manager_host_setup` stores `True`), or the cached unpack script string
(the ssh path in `run` stores `make_host_unpack_script(...)`). -/
inductive PyFlag where
  | pynone : PyFlag
  | pybool (b : Bool) : PyFlag
  | pystr (s : String) : PyFlag
deriving DecidableEq, Repr

/-- Python truthiness of a `PyFlag` value (`None` and `""` are falsy). -/
def PyFlag.truthy : PyFlag → Bool
  | .pynone => false
  | .pybool b => b
  | .pystr s => s ≠ ""

/-- The mutable attributes of one `Jaynes` orchestrator instance. -/
structure JState where
  mounts : List Mount := []
  runner : Runner := {}
  uploaded : List Nat := []
  host_unpacked : PyFlag := .pynone
  launch_script : Option String := none
deriving DecidableEq, Repr

/-- The list comprehension
`[f(m) for m in self.mounts if hasattr(m, attr) and f(m)]`: keep the
fragments that are present and non-empty. -/
def fragmentsOf (f : Mount → Option String) (ms : List Mount) : List String :=
  (ms.filter fun m => match f m with
    | some s => s ≠ ""
    | none => false).map fun m => (f m).getD ""

/-- `"\n".join([m.host_setup for m in self.mounts if ...])`. -/
def hostSetupJoin (ms : List Mount) : String :=
  pyJoin "\n" (fragmentsOf Mount.host_setup ms)

/-- `"\n".join([m.upload_script for m in self.mounts if ...])`. -/
def uploadScriptJoin (ms : List Mount) : String :=
  pyJoin "\n" (fragmentsOf Mount.upload_script ms)

/-! ## Launch configuration and script composition -/

/-- The keyword arguments of `make_host_script` / `make_host_unpack_script` /
`launch_local_docker` that the orchestrator reads (everything else lands in
the `**_` catch-all).  `none` means the key is absent, so each function
substitutes its own default. -/
structure LaunchCfg where
  type : Option String := none
  launch_dir : Option String := none
  log_dir : Option String := none
  pipe_out : Option String := none
  setup : Option String := none
  terminate_after : Bool := false
  delay : Option Nat := none
  instance_name : Option String := none
  root_config : Option String := none
deriving DecidableEq, Repr

/-- `f"sleep {delay}" if delay else ""` (a zero delay is falsy). -/
def sleepFragment : Option Nat → String
  | none => ""
  | some d => if d = 0 then "" else "sleep " ++ toString d

/-- Modelled from the spec: `jaynes/templates.py` is not under `src/`.
Stands for the EC2 self-termination fragment `ec2_terminate(delay)`
attached when `terminate_after` is set on a provider-A launch. -/
def ec2_terminate (delay : Option Nat) : String :=
  "# ec2-terminate " ++ toString (delay.getD 0)

/-- Modelled from the spec: `jaynes/templates.py` is not under `src/`.
Stands for the GCE self-termination fragment `gce_terminate(delay)`. -/
def gce_terminate (delay : Option Nat) : String :=
  "# gce-terminate " ++ toString (delay.getD 0)

/-- Modelled from the spec: `jaynes/templates.py` is not under `src/`.
Stands for the tagging fragment `ec2_tag_instance(instance_name)` inserted
for a named provider-A instance. -/
def ec2_tag_instance (instance_name : String) : String :=
  "# ec2-tag-instance " ++ instance_name

/-- `Jaynes.make_host_unpack_script`: the minimal script containing root
config, directory creation and the concatenated mount host-setup fragments,
dedented and stripped exactly as the source template is. -/
def make_host_unpack_script (s : JState) (cfg : LaunchCfg) : String :=
  let launch_dir := cfg.launch_dir.getD "/tmp/jaynes-mount"
  let log_path := pathJoin launch_dir "jaynes-launch.log"
  let error_path := pathJoin launch_dir "jaynes-launch.err.log"
  let all_setup := hostSetupJoin s.mounts
  pyStrip (dedent (
    "\n        #!/bin/bash\n        # to allow process substitution\n        set +o posix\n        "
    ++ orEmpty cfg.root_config
    ++ "\n        mkdir -p " ++ launch_dir
    ++ "\n        \x7b\n            " ++ all_setup
    ++ "\n            " ++ sleepFragment cfg.delay
    ++ "\n        \x7d > >(tee -a " ++ log_path ++ ") 2> >(tee -a " ++ error_path ++ " >&2)\n        "))

/-- `Jaynes.launch_local_docker`: the composed `remote_script` text (the
`ck(...)` subprocess side effect and the dry/verbose printing carry no state
and are not modelled; the method mutates no instance attribute and returns
`self`). -/
def launch_local_docker (s : JState) (cfg : LaunchCfg) : String :=
  let log_dir := cfg.log_dir.getD "/tmp/jaynes-mount"
  let log_path := pathJoin log_dir "jaynes-launch.log"
  let error_path := pathJoin log_dir "jaynes-launch.err.log"
  let upload_script := uploadScriptJoin s.mounts
  let host_setup := if s.host_unpacked.truthy then "" else hostSetupJoin s.mounts
  pyStrip (dedent (
    "\n        #!/bin/bash\n        # to allow process substitution\n        set +o posix\n        "
    ++ orEmpty cfg.root_config
    ++ "\n        mkdir -p " ++ log_dir
    ++ "\n        \x7b\n            " ++ host_setup
    ++ "\n\n            # upload_script\n            " ++ upload_script
    ++ "\n\n            " ++ s.runner.setup_script
    ++ "\n            " ++ s.runner.run_script
    ++ "\n            \n            " ++ sleepFragment cfg.delay
    ++ "\n        \x7d > >(tee -a " ++ log_path ++ ") 2> >(tee -a " ++ error_path ++ " >&2)\n        "))

/-- The exceptions `make_host_script` can raise: the 128-character
`instance_name` assertion, and `NotImplementedError` (the spec's
`UnsupportedCapabilityError`) when `terminate_after` is requested for a
backend type without a termination strategy.  The latter carries the
offending `type` value exactly as the message
`f"terminate_after is not supported with {type}"` does. -/
inductive JError where
  | assertionError : JError
  | unsupportedCapability (type : Option String) : JError
deriving DecidableEq, Repr

/-- The redirection suffix `pipe_out` defaults to when the caller supplies
none (or an empty, falsy one). -/
def defaultPipeOut (launch_dir : String) : String :=
  let log_path := pathJoin launch_dir "jaynes-launch.log"
  let error_path := pathJoin launch_dir "jaynes-launch.err.log"
  " > >(tee -a " ++ log_path ++ ") 2> >(tee -a " ++ error_path ++ " >&2)"

/-- `if not pipe_out: pipe_out = f" > >(tee ...)"`: both an absent and an
empty (falsy) `pipe_out` are replaced by the default redirection. -/
def resolvePipeOut (po : Option String) (launch_dir : String) : String :=
  match po with
  | none => defaultPipeOut launch_dir
  | some p => if p = "" then defaultPipeOut launch_dir else p

/-- The `assert len(instance_name) <= 128` guard, reached only when
`instance_name` is truthy. -/
def instanceNameOk : Option String → Bool
  | none => true
  | some n => if n = "" then true else decide (n.length ≤ 128)

/-- The `terminate_commands` computation of `make_host_script` (lines
153-160): empty when `terminate_after` is falsy, the provider template for
`ec2`/`gce`, and `NotImplementedError` naming the type otherwise. -/
def terminateSection (cfg : LaunchCfg) : Except JError String :=
  if cfg.terminate_after then
    if cfg.type = some "ec2" then .ok (ec2_terminate cfg.delay)
    else if cfg.type = some "gce" then .ok (gce_terminate cfg.delay)
    else .error (.unsupportedCapability cfg.type)
  else .ok ""

/-- `ec2_tag_instance(instance_name) if type == "ec2" and instance_name
else ""`. -/
def ec2TagSection (type? name? : Option String) : String :=
  match type?, name? with
  | some "ec2", some n => if n = "" then "" else ec2_tag_instance n
  | _, _ => ""

/-- `Jaynes.make_host_script`: returns the state after the call paired with
the outcome.  On success the composed script is stored in `launch_script`
and also returned; on an exception the instance is unchanged (both raises
occur before the `self.launch_script = ...` assignment).  The literal
segments below are the raw f-string of the source verbatim (braces of the
shell block written as escapes). -/
def make_host_script (s : JState) (cfg : LaunchCfg) :
    JState × Except JError String :=
  let launch_dir := cfg.launch_dir.getD "~/jaynes-launch"
  let log_setup := dedent ("\n        mkdir -p " ++ launch_dir
    ++ "\n        JAYNES_LAUNCH_DIR=" ++ launch_dir ++ "\n        ")
  let pipe_out := resolvePipeOut cfg.pipe_out launch_dir
  let upload_script := uploadScriptJoin s.mounts
  let host_unpack_script :=
    if s.host_unpacked.truthy then "" else hostSetupJoin s.mounts
  if instanceNameOk cfg.instance_name = false then (s, .error .assertionError)
  else
    match terminateSection cfg with
    | .error e => (s, .error e)
    | .ok terminate_commands =>
      let tag := ec2TagSection cfg.type cfg.instance_name
      let script := pyStrip (
        "\n#" ++ "!/bin/bash\n# to allow process substitution\nset +o posix\n"
        ++ orEmpty cfg.root_config
        ++ "\n" ++ log_setup
        ++ "\n\x7b\n            # launch.setup script\n            " ++ orEmpty cfg.setup
        ++ "\n" ++ tag
        ++ "\n" ++ host_unpack_script
        ++ "\n            # upload_script from within the host.\n" ++ upload_script
        ++ "\n            # runner.setup script\n" ++ s.runner.setup_script
        ++ "\n            # run script\n" ++ s.runner.run_script
        ++ "\n            # post script\n" ++ s.runner.post_script
        ++ "\n" ++ terminate_commands
        ++ "\n" ++ "\x7d" ++ " " ++ pipe_out ++ "\n")
      ({ s with launch_script := some script }, .ok script)

/-! ## Upload idempotency (`Jaynes.upload_mount`) -/

/-- Observable events of one `upload_mount` call: either the mount's upload
side effect fires, or the diagnostic note
`print('this package is already uploaded')` is emitted for it. -/
inductive UploadEvent where
  | uploadInvoked (id : Nat) : UploadEvent
  | alreadyUploadedNote (id : Nat) : UploadEvent
deriving DecidableEq, Repr

/-- The `for mount in self.mounts` loop of `upload_mount`: threading the
`_uploaded` identity list and recording an event per mount.  A mount already
present is skipped with only the note; otherwise it is appended to
`_uploaded` and its upload side effect is invoked. -/
def uploadLoop : List Mount → List Nat → List Nat × List UploadEvent
  | [], up => (up, [])
  | m :: rest, up =>
    if m.id ∈ up then
      let (u, es) := uploadLoop rest up
      (u, .alreadyUploadedNote m.id :: es)
    else
      let (u, es) := uploadLoop rest (up ++ [m.id])
      (u, .uploadInvoked m.id :: es)

/-- `Jaynes.upload_mount`: runs the loop over the instance's mounts against
its `_uploaded` list; total (it never raises). -/
def upload_mount (s : JState) : JState × List UploadEvent :=
  let (u, es) := uploadLoop s.mounts s.uploaded
  ({ s with uploaded := u }, es)

/-- Number of upload side-effect invocations for a given mount identity in a
trace. -/
def countUploads (id : Nat) (es : List UploadEvent) : Nat :=
  (es.filter (· = .uploadInvoked id)).length

/-- Whether an event is the skip diagnostic (rather than an upload). -/
def UploadEvent.isNote : UploadEvent → Bool
  | .alreadyUploadedNote _ => true
  | .uploadInvoked _ => false

/-! ## `manager_host_setup` and the ssh unpack path of `run()` -/

/-- Outcome of the remote `JaynesClient` calls (`jaynes/client.py` is not
under `src/`; modelled from the spec, which gives the manager client a
`map`/`execute` interface that may fail).  The claims hold for every
outcome, so it is an arbitrary parameter. -/
inductive RemoteOutcome where
  | succeeded (pipe_back : List String) : RemoteOutcome
  | failed : RemoteOutcome
deriving DecidableEq, Repr

/-- `Jaynes.manager_host_setup`: the very first statement is
`self.host_unpacked = True`; only then is the client created and the mount
host-setup fragments pushed.  The new state therefore does not depend on
the remote outcome. -/
def manager_host_setup (s : JState) (remote : RemoteOutcome) :
    JState × RemoteOutcome :=
  ({ s with host_unpacked := .pybool true }, remote)

/-- The ssh unpack path inside `run()` (lines 615-622): when the launch type
starts with `"ssh"` and `host_unpacked` is falsy, the unpack script is
produced and cached in `host_unpacked`, briefly exposed as `launch_script`
for the blocking ssh call, and `launch_script` is reset to `None`
afterwards.  Otherwise nothing changes. -/
def run_ssh_unpack (s : JState) (cfg : LaunchCfg) : JState :=
  if (pyStartsWith (cfg.type.getD "") "ssh") && !s.host_unpacked.truthy then
    { s with host_unpacked := .pystr (make_host_unpack_script s cfg),
             launch_script := none }
  else s

/-- The manager unpack path inside `run()` (lines 624-626). -/
def run_manager_unpack (s : JState) (cfg : LaunchCfg) (remote : RemoteOutcome) :
    JState :=
  if (cfg.type = some "manager") && !s.host_unpacked.truthy then
    (manager_host_setup s remote).1
  else s

/-- One state-affecting operation on a `Jaynes` instance: the setters, the
upload step, the script compositions, and the two unpack paths of `run()`.
`launch_ssh`, `launch_ec2`, `launch_gce` and `launch_manager` read
`launch_script` but assign no instance attribute, so they are identity on
`JState` and omitted. -/
inductive JOp where
  | setRunner (r : Runner) : JOp
  | setMount (ms : List Mount) : JOp
  | uploadMount : JOp
  | makeHostUnpackScript (cfg : LaunchCfg) : JOp
  | makeHostScript (cfg : LaunchCfg) : JOp
  | launchLocalDocker (cfg : LaunchCfg) : JOp
  | sshUnpackPath (cfg : LaunchCfg) : JOp
  | managerUnpackPath (cfg : LaunchCfg) (remote : RemoteOutcome) : JOp
deriving Repr

/-- State transition of each operation (outputs discarded). -/
def step : JOp → JState → JState
  | .setRunner r, s => { s with runner := r }
  | .setMount ms, s => { s with mounts := ms }
  | .uploadMount, s => (upload_mount s).1
  | .makeHostUnpackScript _, s => s
  | .makeHostScript cfg, s => (make_host_script s cfg).1
  | .launchLocalDocker _, s => s
  | .sshUnpackPath cfg, s => run_ssh_unpack s cfg
  | .managerUnpackPath cfg remote, s => run_manager_unpack s cfg remote

/-- A run of operations, applied left to right. -/
def steps (ops : List JOp) (s : JState) : JState :=
  ops.foldl (fun t op => step op t) s

/-- Erase every mount's host-setup fragment (used to state that a composed
script omits them: the composition is invariant under this erasure). -/
def eraseHostSetup (s : JState) : JState :=
  { s with mounts := s.mounts.map fun m => { m with host_setup := none } }

/-! ## Template interpolation (`run()` lines 593-604) -/

/-- Exceptions of `str.format(**context)` relevant here: a missing *named*
replacement field raises `KeyError(name)`; an empty or numeric (positional)
field raises `IndexError` because `run()` passes no positional arguments; a
stray or unterminated brace raises `ValueError`. -/
inductive FmtErr where
  | keyError (name : String) : FmtErr
  | indexError : FmtErr
  | valueError : FmtErr
deriving DecidableEq, Repr

/-- The base name of a replacement field: the part before any attribute,
index, conversion or format-spec suffix. -/
def fieldBase (f : List Char) : List Char :=
  f.takeWhile fun c => c ≠ '.' && c ≠ '[' && c ≠ '!' && c ≠ ':'

/-- Recursive scanner for `str.format` (fuel-bounded: each step consumes at
least one character, so fuel `length + 1` never runs out; accessor suffixes
after a resolved base name and nested format specs are outside the modelled
fragment, but base-name resolution and the error classes follow
`str.format`). -/
def pyFormatGo (ctx : List (String × String)) :
    Nat → List Char → Except FmtErr (List Char)
  | 0, _ => .error .valueError
  | _, [] => .ok []
  | Nat.succ fuel, '\x7b' :: '\x7b' :: rest =>
    (pyFormatGo ctx fuel rest).map fun t => '\x7b' :: t
  | Nat.succ fuel, '\x7d' :: '\x7d' :: rest =>
    (pyFormatGo ctx fuel rest).map fun t => '\x7d' :: t
  | Nat.succ fuel, '\x7b' :: rest =>
    let field := rest.takeWhile (· ≠ '\x7d')
    match rest.dropWhile (· ≠ '\x7d') with
    | [] => .error .valueError
    | _ :: tail =>
      let base := fieldBase field
      if base.isEmpty || base.all Char.isDigit then .error .indexError
      else
        match ctx.find? fun kv => kv.1 = String.mk base with
        | none => .error (.keyError (String.mk base))
        | some kv => (pyFormatGo ctx fuel tail).map fun t => kv.2.data ++ t
  | _, '\x7d' :: _ => .error .valueError
  | Nat.succ fuel, c :: rest =>
    (pyFormatGo ctx fuel rest).map fun t => c :: t

/-- `template.format(**context)` with a string-valued context. -/
def pyFormat (tmpl : String) (ctx : List (String × String)) :
    Except FmtErr String :=
  (pyFormatGo ctx (tmpl.data.length + 1) tmpl.data).map String.mk

/-- A runner option value: a string (interpolated) or anything else (passed
through untouched). -/
inductive RVal where
  | rstr (v : String) : RVal
  | rother (tag : Nat) : RVal
deriving DecidableEq, Repr

/-- How the hydration loop of `run()` fails: the exception, plus the
diagnostic `print(f"{k} '{v}' context: {list(context.items())}")` — which
the source emits only from its `except IndexError` clause, so `diag` is
`none` whenever any other exception propagates. -/
structure HydrateFailure where
  err : FmtErr
  diag : Option (String × String × List (String × String))
deriving DecidableEq, Repr

/-- The `for k, v in runner_kwargs.items()` interpolation loop of `run()`:
string values are formatted against the context; a raised `IndexError` is
caught, the diagnostic naming the field and the context is printed, and the
exception is re-raised; any other exception (notably `KeyError` for a
missing named field) propagates with no diagnostic. -/
def hydrateKwargs (ctx : List (String × String)) :
    List (String × RVal) → Except HydrateFailure (List (String × RVal))
  | [] => .ok []
  | (k, .rother v) :: rest =>
    (hydrateKwargs ctx rest).map fun t => (k, .rother v) :: t
  | (k, .rstr v) :: rest =>
    match pyFormat v ctx with
    | .ok s => (hydrateKwargs ctx rest).map fun t => (k, .rstr s) :: t
    | .error .indexError =>
      .error { err := .indexError, diag := some (k, v, ctx) }
    | .error e => .error { err := e, diag := none }

/-! ## Configuration resolution (`RUN` and `config()`), with an explicit
heap so Python's dict aliasing is captured -/

/-- A Python value stored in a configuration dict: a scalar, a reference to
another dict on the heap, or the `(RunnerClass, runner_config)` tuple stored
under the `runner` key. -/
inductive PV where
  | prim (s : String) : PV
  | ref (a : Nat) : PV
  | tupleRC (cls : String) (a : Nat) : PV
deriving DecidableEq, Repr

/-- A dict object: insertion-ordered association list with unique keys. -/
abbrev Dict := List (String × PV)

/-- `d.get(k)` / `d[k]` lookup. -/
def getk (d : Dict) (k : String) : Option PV :=
  (d.find? fun kv => kv.1 = k).map fun kv => kv.2

/-- `d[k] = v`: replace in place, else append (Python insertion order). -/
def setk : Dict → String → PV → Dict
  | [], k, v => [(k, v)]
  | (k', v') :: t, k, v =>
    if k' = k then (k, v) :: t else (k', v') :: setk t k v

/-- `d.update(o)`: set each of `o`'s entries on `d`, in order. -/
def dictUpdate (d o : Dict) : Dict :=
  o.foldl (fun acc kv => setk acc kv.1 kv.2) d

/-- The heap of dict objects; an address is an index. -/
abbrev Heap := List Dict

/-- Dereference an address. -/
def heapGet (h : Heap) (a : Nat) : Dict := h.getD a []

/-- Mutate the dict object at an address. -/
def heapSet (h : Heap) (a : Nat) (d : Dict) : Heap := h.set a d

/-- The process-wide `RUN` singleton state used by `config()`:
whether `RUN.J` has been created, the address of the raw parsed document
(`RUN.raw`), the current merged configuration (`RUN.config`, a fresh
top-level dict each call whose nested values are heap references), and
`RUN.mode`. -/
structure RunState where
  hasJ : Bool := false
  rawAddr : Option Nat := none
  config : Option Dict := none
  mode : Option String := none
  heap : Heap := []
deriving DecidableEq, Repr

/-- Outcome of one `config()` call.  `errMissingRunDefault` is the
`assert run, "run field in .jaynes.yml can not be empty ..."` failure (the
spec's `ConfigError(MissingDefault)`); `errUnknownMode` is the `KeyError`
from `modes[mode]` (the spec's `ConfigError(UnknownMode)`);
`earlyNoConfig` is the diagnostic
`cprint('No .jaynes.yml is found. Run jaynes.init ...', "red"); return`
path, which raises nothing; `earlyLocal` is the `mode == 'local'`
short-circuit; `errMalformed` marks documents outside the modelled shape. -/
inductive CfgOutcome where
  | done : CfgOutcome
  | earlyLocal : CfgOutcome
  | earlyNoConfig : CfgOutcome
  | errMissingRunDefault : CfgOutcome
  | errUnknownMode (m : String) : CfgOutcome
  | errKeyError (k : String) : CfgOutcome
  | errMalformed : CfgOutcome
deriving DecidableEq, Repr

/-- Lines 550-554 of the source: a call-time `runner` override.  The stored
runner option dict is *copied* (`runner_config.copy()`) before merging, the
merged copy becomes a fresh object, and `RUN.config['runner']` is pointed at
it — the raw document's dict is untouched. -/
def applyRunnerOverride (st : RunState) (config : Dict) :
    Option Dict → Option (RunState × Dict)
  | none => some (st, config)
  | some ro =>
    match getk config "runner" with
    | some (.tupleRC cls a) =>
      let merged := dictUpdate (heapGet st.heap a) ro
      let addr := st.heap.length
      some ({ st with heap := st.heap ++ [merged] },
            setk config "runner" (.tupleRC cls addr))
    | _ => none

/-- Lines 556-559 of the source: a call-time `launch` override.
`local_copy = RUN.config['launch']` takes the dict object itself — there is
no `.copy()` here, unlike the runner branch — so `local_copy.update(launch)`
mutates the referenced dict on the heap in place.
`RUN.config['launch']` raises `KeyError` when the key is absent. -/
def applyLaunchOverride (st : RunState) (config : Dict) :
    Option Dict → Except CfgOutcome (RunState × Dict)
  | none => .ok (st, config)
  | some lo =>
    match getk config "launch" with
    | none => .error (.errKeyError "launch")
    | some (.ref a) =>
      .ok ({ st with heap := heapSet st.heap a (dictUpdate (heapGet st.heap a) lo) },
           setk config "launch" (.ref a))
    | some _ => .error .errMalformed

/-- `RUN.raw.get('modes', {})` dereferenced: the modes dict of a document,
the empty dict when the document has no `modes` key (the subsequent
`modes[mode]` then raises `KeyError` for every name). -/
def modesDictOf (h : Heap) (raw : Dict) : Dict :=
  match getk raw "modes" with
  | some (.ref a) => heapGet h a
  | _ => []

/-- Lines 537-561 of the source: `RUN.config = RUN.raw.copy()` (shallow —
nested dicts stay shared with the document), the `local` short-circuit, the
`run`-block / `modes[mode]` merge with its two failures, the two overrides,
and the final `RUN.config.update(ctx)`.  The state after an exception keeps
whatever `RUN.config` held at the raise point. -/
def resolvePhase (st0 : RunState) (mode : Option String)
    (runnerOv launchOv : Option Dict) (ctx : Dict) : RunState × CfgOutcome :=
  let raw := heapGet st0.heap (st0.rawAddr.getD 0)
  let st1 := { st0 with config := some raw }
  if mode = some "local" then (st1, .earlyLocal)
  else
    let mergeStep : Except CfgOutcome Dict :=
      match mode with
      | none =>
        match getk raw "run" with
        | none => .error .errMissingRunDefault
        | some (.ref a) =>
          let rd := heapGet st1.heap a
          if rd.isEmpty then .error .errMissingRunDefault
          else .ok (dictUpdate raw rd)
        | some _ => .error .errMalformed
      | some m =>
        let modesDict := modesDictOf st1.heap raw
        match getk modesDict m with
        | none => .error (.errUnknownMode m)
        | some (.ref a) => .ok (dictUpdate raw (heapGet st1.heap a))
        | some _ => .error .errMalformed
    match mergeStep with
    | .error e => (st1, e)
    | .ok cfg1 =>
      let st2 := { st1 with config := some cfg1 }
      match applyRunnerOverride st2 cfg1 runnerOv with
      | none => (st2, .errMalformed)
      | some (st3, cfg2) =>
        let st3b := { st3 with config := some cfg2 }
        match applyLaunchOverride st3b cfg2 launchOv with
        | .error e => (st3b, e)
        | .ok (st4, cfg3) =>
          ({ st4 with config := some (dictUpdate cfg3 ctx) }, .done)

/-- The `config(mode, config_path=..., runner=..., launch=..., **ext)` entry
point (lines 476-561).  `found` abstracts the `.jaynes.yml` ancestor-walk
result — modelled from the spec, `helpers.cwd_ancestors` being outside
`src/` — and `parsed` abstracts `yaml.safe_load` plus the tag constructors:
the document's object graph and the root address installed on first load.
`RUN.mode = mode` happens before anything else.  The trailing
`set_mount`/`upload_mount` calls act on the `Jaynes` instance and are
modelled separately by `upload_mount`. -/
def configCall (st : RunState) (mode : Option String)
    (config_path : Option String) (runnerOv launchOv : Option Dict)
    (found : Option String) (parsed : Heap × Nat) (ctx : Dict) :
    RunState × CfgOutcome :=
  let st := { st with mode := mode }
  if st.hasJ then resolvePhase st mode runnerOv launchOv ctx
  else
    match config_path, found with
    | none, none => (st, .earlyNoConfig)
    | _, _ =>
      let st := { st with hasJ := true, rawAddr := some parsed.2, heap := parsed.1 }
      resolvePhase st mode runnerOv launchOv ctx

/-- The dict object the current `RUN.config['launch']` reference points to
(empty when absent or not a reference). -/
def configLaunchDict (st : RunState) : Dict :=
  match st.config with
  | none => []
  | some c =>
    match getk c "launch" with
    | some (.ref a) => heapGet st.heap a
    | _ => []

/-- Whether a `config()` outcome is an exception (as opposed to normal
return, including the two early returns). -/
def CfgOutcome.isErr : CfgOutcome → Bool
  | .errMissingRunDefault => true
  | .errUnknownMode _ => true
  | .errKeyError _ => true
  | .errMalformed => true
  | _ => false

/-! ## Concrete fixtures used by witnesses and counterexamples -/

/-- A mount with non-empty setup and upload fragments. -/
def wMountA : Mount :=
  { id := 0, host_setup := some "echo a-setup", upload_script := some "echo a-upload" }

/-- A second mount with non-empty setup and upload fragments. -/
def wMountB : Mount :=
  { id := 1, host_setup := some "echo b-setup", upload_script := some "echo b-upload" }

/-- A runner with non-empty fragments. -/
def wRunner : Runner :=
  { setup_script := "echo r-setup", run_script := "echo r-run", post_script := "echo r-post" }

/-- A fresh orchestrator instance: nothing uploaded, host not unpacked. -/
def wFresh : JState := { mounts := [wMountA, wMountB], runner := wRunner }

/-- An instance whose host-unpack flag is already truthy. -/
def wUnpacked : JState :=
  { mounts := [wMountA, wMountB], runner := wRunner, host_unpacked := .pybool true }

/-- A 129-character instance name (one over the asserted limit). -/
def wLongName : String := String.mk (List.replicate 129 'a')

/-- The script the fixture composition produces (used to instantiate the
ordering theorem at a concrete input). -/
def wScript : String :=
  ((make_host_script wFresh { type := some "ssh" }).2.toOption).getD ""

/-- The document heap of the aliasing scenario: the root document at address
0 holds `run: &r1`, address 1 holds `launch: &l2`, and address 2 is the
nested launch dict `{type: ssh}` shared between the document and every
shallow copy. -/
def wHeap : Heap :=
  [[("run", PV.ref 1)], [("launch", PV.ref 2)], [("type", PV.prim "ssh")]]

/-- A `RUN` state in which the document above is already loaded. -/
def wLoaded : RunState := { hasJ := true, rawAddr := some 0, heap := wHeap }

/-- A loaded document whose `run` block is *present but empty*
(`run: {}` — address 1 holds the empty dict): the `assert run` rejects it
even though the block exists. -/
def wLoadedEmptyRun : RunState :=
  { hasJ := true, rawAddr := some 0, heap := [[("run", PV.ref 1)], []] }

/-- The state after a first configuration call that passes a `launch`
override `{dry: True}`. -/
def wCall1 : RunState :=
  (configCall wLoaded none none none (some [("dry", PV.prim "True")]) none
    ⟨[], 0⟩ []).1

/-- The state after a second configuration call with no override at all. -/
def wCall2 : RunState :=
  (configCall wCall1 none none none none none ⟨[], 0⟩ []).1

/-! # Theorems -/

/-! ## String decomposition helpers -/

/-- `dropWhile` passes over an arbitrary prefix but never beyond an element
the predicate rejects. -/
theorem dropWhile_append_cons (p : Char → Bool) (a : List Char) (c : Char)
    (b : List Char) (h : p c = false) :
    List.dropWhile p (a ++ c :: b) = List.dropWhile p a ++ c :: b := by
  induction a with
  | nil => simp [List.dropWhile_cons, h]
  | cons x xs ih =>
    simp only [List.cons_append, List.dropWhile_cons]
    by_cases hx : p x
    · simp [hx, ih]
    · simp [hx]

/-- Right-stripping cannot reach past a non-whitespace character: everything
to its left survives unchanged. -/
theorem rstripAux_append_cons (front : List Char) (c : Char)
    (rest : List Char) (h : isPySpace c = false) :
    rstripAux (front ++ c :: rest) = front ++ c :: rstripAux rest := by
  unfold rstripAux
  rw [List.reverse_append, List.reverse_cons, List.append_assoc,
    List.singleton_append, dropWhile_append_cons _ _ _ _ h,
    List.reverse_append, List.reverse_cons, List.reverse_reverse]
  simp

/-- `pyStrip` on a string of the shape `"\n#" ++ body ++ "}" ++ tl`:
the strip removes exactly the leading newline and some whitespace inside the
trailing segment; the region between the `#` and `}` anchors is untouched. -/
theorem pyStrip_decomp (body tl : String) :
    (pyStrip ("\n#" ++ body ++ "\x7d" ++ tl)).data
      = '#' :: (body.data ++ '\x7d' :: rstripAux tl.data) := by
  have hd : ("\n#" ++ body ++ "\x7d" ++ tl).data
      = '\n' :: '#' :: (body.data ++ '\x7d' :: tl.data) := by
    simp [String.data_append]
  show rstripAux (List.dropWhile isPySpace ("\n#" ++ body ++ "\x7d" ++ tl).data) = _
  rw [hd, List.dropWhile_cons_of_pos (by decide),
    List.dropWhile_cons_of_neg (by decide)]
  have hsplit : '#' :: (body.data ++ '\x7d' :: tl.data)
      = ('#' :: body.data) ++ '\x7d' :: tl.data := by simp
  rw [hsplit, rstripAux_append_cons _ _ _ (by decide)]
  simp

/-! ## `host_unpacked` frame and monotonicity helpers -/

/-- `make_host_script` never assigns `host_unpacked`: whichever branch is
taken, the field is returned unchanged. -/
theorem make_host_script_host_unpacked (s : JState) (cfg : LaunchCfg) :
    (make_host_script s cfg).1.host_unpacked = s.host_unpacked := by
  unfold make_host_script
  repeat' split
  all_goals rfl

/-- `upload_mount` only extends the `_uploaded` list. -/
theorem upload_mount_fst (s : JState) :
    (upload_mount s).1 = { s with uploaded := (uploadLoop s.mounts s.uploaded).1 }
      ∧ (upload_mount s).2 = (uploadLoop s.mounts s.uploaded).2 := by
  rcases hX : uploadLoop s.mounts s.uploaded with ⟨u, es⟩
  simp [upload_mount, hX]

/-- No operation ever moves `host_unpacked` from truthy back to falsy. -/
theorem step_preserves_truthy (op : JOp) (s : JState)
    (h : s.host_unpacked.truthy = true) :
    ((step op s).host_unpacked).truthy = true := by
  cases op with
  | setRunner r => exact h
  | setMount ms => exact h
  | uploadMount =>
    show ((upload_mount s).1.host_unpacked).truthy = true
    rw [(upload_mount_fst s).1]
    exact h
  | makeHostUnpackScript cfg => exact h
  | makeHostScript cfg =>
    show ((make_host_script s cfg).1.host_unpacked).truthy = true
    rw [make_host_script_host_unpacked]
    exact h
  | launchLocalDocker cfg => exact h
  | sshUnpackPath cfg =>
    show ((run_ssh_unpack s cfg).host_unpacked).truthy = true
    simp [run_ssh_unpack, h]
  | managerUnpackPath cfg remote =>
    show ((run_manager_unpack s cfg remote).host_unpacked).truthy = true
    unfold run_manager_unpack
    split
    · simp [manager_host_setup, PyFlag.truthy]
    · exact h

/-- Monotonicity over an arbitrary run of operations. -/
theorem steps_preserves_truthy (ops : List JOp) (s : JState)
    (h : s.host_unpacked.truthy = true) :
    ((steps ops s).host_unpacked).truthy = true := by
  induction ops generalizing s with
  | nil => exact h
  | cons op rest ih =>
    show ((steps rest (step op s)).host_unpacked).truthy = true
    exact ih _ (step_preserves_truthy op s h)

/-- Filter-then-map ignores an element transformation that changes neither
the predicate nor the projected value. -/
theorem filter_map_fixed (p : Mount → Bool) (v : Mount → String)
    (g : Mount → Mount) (hp : ∀ m, p (g m) = p m) (hv : ∀ m, v (g m) = v m)
    (ms : List Mount) :
    ((ms.map g).filter p).map v = (ms.filter p).map v := by
  induction ms with
  | nil => rfl
  | cons m rest ih =>
    rw [List.map_cons, List.filter_cons, List.filter_cons, hp m]
    cases hB : p m
    · simpa using ih
    · simp only [if_pos, List.map_cons, hv m, ih]

/-- Erasing host-setup fragments leaves the upload section unchanged. -/
theorem uploadScriptJoin_erase (ms : List Mount) :
    uploadScriptJoin (ms.map fun m => { m with host_setup := none })
      = uploadScriptJoin ms := by
  unfold uploadScriptJoin fragmentsOf
  rw [filter_map_fixed]
  · intro m; rfl
  · intro m; rfl

/-- Once `host_unpacked` is truthy, the script composed by
`make_host_script` does not depend on any mount's `host_setup` fragment. -/
theorem make_host_script_erase (s : JState) (cfg : LaunchCfg)
    (h : s.host_unpacked.truthy = true) :
    (make_host_script (eraseHostSetup s) cfg).2 = (make_host_script s cfg).2 := by
  have e1 : (eraseHostSetup s).host_unpacked = s.host_unpacked := rfl
  have e2 : (eraseHostSetup s).runner = s.runner := rfl
  have e3 : uploadScriptJoin (eraseHostSetup s).mounts = uploadScriptJoin s.mounts :=
    uploadScriptJoin_erase s.mounts
  unfold make_host_script
  rw [e1, e2, e3]
  repeat' split
  all_goals rfl

/-- Once `host_unpacked` is truthy, the local-docker script does not depend
on any mount's `host_setup` fragment either. -/
theorem launch_local_docker_erase (s : JState) (cfg : LaunchCfg)
    (h : s.host_unpacked.truthy = true) :
    launch_local_docker (eraseHostSetup s) cfg = launch_local_docker s cfg := by
  have e1 : (eraseHostSetup s).host_unpacked = s.host_unpacked := rfl
  have e2 : (eraseHostSetup s).runner = s.runner := rfl
  have e3 : uploadScriptJoin (eraseHostSetup s).mounts = uploadScriptJoin s.mounts :=
    uploadScriptJoin_erase s.mounts
  unfold launch_local_docker
  rw [e1, e2, e3]
  split
  · rfl
  · exact absurd h (by assumption)

/-! ## Upload idempotency lemmas -/

/-- Counting upload events through a cons. -/
theorem countUploads_cons (i : Nat) (e : UploadEvent) (es : List UploadEvent) :
    countUploads i (e :: es)
      = (if e = .uploadInvoked i then 1 else 0) + countUploads i es := by
  unfold countUploads
  rw [List.filter_cons]
  split
  · simp_all [Nat.add_comm]
  · simp_all

/-- Counting upload events through an append. -/
theorem countUploads_append (i : Nat) (es fs : List UploadEvent) :
    countUploads i (es ++ fs) = countUploads i es + countUploads i fs := by
  unfold countUploads
  rw [List.filter_append, List.length_append]

/-- After the loop, a mount identity is recorded iff it was recorded before
or occurs in the processed list. -/
theorem uploadLoop_mem (ms : List Mount) (up : List Nat) (i : Nat) :
    i ∈ (uploadLoop ms up).1 ↔ i ∈ up ∨ i ∈ ms.map Mount.id := by
  induction ms generalizing up with
  | nil => simp [uploadLoop]
  | cons m rest ih =>
    unfold uploadLoop
    by_cases hm : m.id ∈ up
    · rcases hX : uploadLoop rest up with ⟨u, es⟩
      have := ih up
      rw [hX] at this
      simp only [if_pos hm, hX, List.map_cons, List.mem_cons]
      rw [this]
      constructor
      · tauto
      · rintro (h | h | h)
        · tauto
        · subst h; tauto
        · tauto
    · rcases hX : uploadLoop rest (up ++ [m.id]) with ⟨u, es⟩
      have := ih (up ++ [m.id])
      rw [hX] at this
      simp only [if_neg hm, hX, List.map_cons, List.mem_cons]
      rw [this]
      simp only [List.mem_append, List.mem_singleton]
      tauto

/-- The loop fires the upload side effect exactly once for an unrecorded
identity that occurs in the list, and never for a recorded one. -/
theorem uploadLoop_count (ms : List Mount) (up : List Nat) (i : Nat) :
    countUploads i (uploadLoop ms up).2
      = if i ∈ up then 0 else if i ∈ ms.map Mount.id then 1 else 0 := by
  induction ms generalizing up with
  | nil => simp [uploadLoop, countUploads]
  | cons m rest ih =>
    unfold uploadLoop
    by_cases hm : m.id ∈ up
    · rcases hX : uploadLoop rest up with ⟨u, es⟩
      have := ih up
      rw [hX] at this
      simp only [if_pos hm, hX, countUploads_cons]
      rw [this]
      by_cases hi : i ∈ up
      · simp [hi]
      · have hne : ¬(UploadEvent.alreadyUploadedNote m.id = UploadEvent.uploadInvoked i) := by
          simp
        have hmi : i ≠ m.id := fun h => hi (h ▸ hm)
        simp [hi, hne, List.mem_cons, hmi]
    · rcases hX : uploadLoop rest (up ++ [m.id]) with ⟨u, es⟩
      have := ih (up ++ [m.id])
      rw [hX] at this
      simp only [if_neg hm, hX, countUploads_cons]
      rw [this]
      by_cases hi : i = m.id
      · subst hi
        simp [hm, List.mem_append]
      · have hne : ¬(UploadEvent.uploadInvoked m.id = UploadEvent.uploadInvoked i) := by
          simp [Ne.symm hi]
        by_cases hiu : i ∈ up
        · simp [hne, hiu, List.mem_append]
        · simp [hne, hiu, List.mem_append, hi, List.mem_cons]

/-- When every identity in the list is already recorded, the loop records
nothing new and emits exactly one diagnostic note per mount, in order. -/
theorem uploadLoop_all_recorded (ms : List Mount) (up : List Nat)
    (h : ∀ m ∈ ms, m.id ∈ up) :
    uploadLoop ms up = (up, ms.map fun m => UploadEvent.alreadyUploadedNote m.id) := by
  induction ms with
  | nil => rfl
  | cons m rest ih =>
    unfold uploadLoop
    rw [if_pos (h m (by simp)), ih fun m hm => h m (by simp [hm])]
    rfl

/-! ## Claim theorems -/

/-- C1: for every orchestrator instance, the `host_unpacked` flag only ever
moves from falsy to truthy and is never reset by any operation sequence;
and from a truthy state, every subsequent script composition
(`make_host_script` and `launch_local_docker`) is invariant under erasing
every mount's `host_setup` fragment — i.e. it omits them even when they are
non-empty. -/
theorem host_unpacked_monotone_and_omits (s : JState)
    (h : s.host_unpacked.truthy = true) :
    (∀ ops : List JOp, ((steps ops s).host_unpacked).truthy = true) ∧
    (∀ ops : List JOp, ∀ cfg : LaunchCfg,
      (make_host_script (steps ops s) cfg).2
        = (make_host_script (eraseHostSetup (steps ops s)) cfg).2 ∧
      launch_local_docker (steps ops s) cfg
        = launch_local_docker (eraseHostSetup (steps ops s)) cfg) := by
  refine ⟨fun ops => steps_preserves_truthy ops s h, fun ops cfg => ?_⟩
  have ht := steps_preserves_truthy ops s h
  exact ⟨(make_host_script_erase _ cfg ht).symm,
         (launch_local_docker_erase _ cfg ht).symm⟩

/-- C1 witness: the instantiated theorem at a concrete truthy instance. -/
theorem host_unpacked_monotone_and_omits_witness :
    wUnpacked.host_unpacked.truthy = true ∧
    ((steps [JOp.uploadMount, JOp.makeHostScript {}] wUnpacked).host_unpacked).truthy = true ∧
    (make_host_script (steps [] wUnpacked) {}).2
      = (make_host_script (eraseHostSetup (steps [] wUnpacked)) {}).2 :=
  ⟨by decide,
   (host_unpacked_monotone_and_omits wUnpacked (by decide)).1 _,
   ((host_unpacked_monotone_and_omits wUnpacked (by decide)).2 [] {}).1⟩

/-- C2: with a fresh mount set, calling `upload_mount` twice invokes each
mount's upload side effect exactly once; every mount is skipped on the
second call, which emits exactly one diagnostic note per mount and raises
nothing (the loop is total). -/
theorem upload_mount_twice_uploads_once (s : JState)
    (hfresh : ∀ m ∈ s.mounts, m.id ∉ s.uploaded) :
    (∀ m ∈ s.mounts,
      countUploads m.id ((upload_mount s).2 ++ (upload_mount (upload_mount s).1).2) = 1) ∧
    (upload_mount (upload_mount s).1).2
      = s.mounts.map fun m => UploadEvent.alreadyUploadedNote m.id := by
  obtain ⟨h1, h2⟩ := upload_mount_fst s
  obtain ⟨h1b, h2b⟩ := upload_mount_fst (upload_mount s).1
  have hm1 : (upload_mount s).1.mounts = s.mounts := by rw [h1]
  have hu1 : (upload_mount s).1.uploaded = (uploadLoop s.mounts s.uploaded).1 := by rw [h1]
  have hrec : ∀ m ∈ (upload_mount s).1.mounts, m.id ∈ (upload_mount s).1.uploaded := by
    intro m hm
    rw [hu1, uploadLoop_mem]
    rw [hm1] at hm
    exact Or.inr (List.mem_map_of_mem _ hm)
  constructor
  · intro m hm
    rw [countUploads_append, h2, h2b, hm1, hu1]
    rw [uploadLoop_count, uploadLoop_count]
    have hin : m.id ∈ s.mounts.map Mount.id := List.mem_map_of_mem _ hm
    have hrec2 : m.id ∈ (uploadLoop s.mounts s.uploaded).1 := by
      rw [uploadLoop_mem]
      exact Or.inr hin
    simp [hfresh m hm, hin, hrec2]
  · rw [h2b, uploadLoop_all_recorded _ _ hrec, hm1]

/-- C2 witness: two mounts, two calls, each uploaded exactly once and both
skipped with notes the second time. -/
theorem upload_mount_twice_uploads_once_witness :
    (∀ m ∈ wFresh.mounts,
      countUploads m.id ((upload_mount wFresh).2 ++ (upload_mount (upload_mount wFresh).1).2) = 1) ∧
    (upload_mount (upload_mount wFresh).1).2
      = wFresh.mounts.map fun m => UploadEvent.alreadyUploadedNote m.id :=
  upload_mount_twice_uploads_once wFresh (by decide)

/-- C10: `manager_host_setup` sets `host_unpacked = True` before any remote
interaction: the resulting instance state is the same for every remote
outcome (including failure), the flag is truthy afterwards, and every later
composition omits the mount host-setup fragments. -/
theorem manager_host_setup_flag_survives_remote_failure (s : JState)
    (remote : RemoteOutcome) (cfg : LaunchCfg) :
    ((manager_host_setup s remote).1.host_unpacked).truthy = true ∧
    (manager_host_setup s remote).1 = (manager_host_setup s .failed).1 ∧
    (make_host_script (manager_host_setup s remote).1 cfg).2
      = (make_host_script (eraseHostSetup (manager_host_setup s remote).1) cfg).2 := by
  refine ⟨rfl, rfl, ?_⟩
  exact (make_host_script_erase (manager_host_setup s remote).1 cfg rfl).symm

/-- C8 counterexample: a fresh falsy instance composes a host script
successfully, yet `make_host_script` leaves `host_unpacked` at `None` — the
claimed side effect does not happen. -/
theorem make_host_script_does_not_set_flag :
    ((make_host_script wFresh { type := some "ssh" }).2).isOk = true ∧
    (make_host_script wFresh { type := some "ssh" }).1.host_unpacked = PyFlag.pynone := by
  constructor
  · rfl
  · rw [make_host_script_host_unpacked]
    rfl

/-- C8 (amended): `make_host_script` never modifies `host_unpacked`; the
NotUnpacked-to-Unpacked transition is fired instead by `run()`'s ssh unpack
path (which stores the `make_host_unpack_script` output) or by the manager
path (which stores `True`). -/
theorem transition_fired_by_run_paths_not_composition (s : JState)
    (cfg : LaunchCfg) (remote : RemoteOutcome) :
    (make_host_script s cfg).1.host_unpacked = s.host_unpacked ∧
    (s.host_unpacked.truthy = false → pyStartsWith (cfg.type.getD "") "ssh" = true →
      (run_ssh_unpack s cfg).host_unpacked = .pystr (make_host_unpack_script s cfg)) ∧
    (s.host_unpacked.truthy = false → cfg.type = some "manager" →
      (run_manager_unpack s cfg remote).host_unpacked = .pybool true) := by
  refine ⟨make_host_script_host_unpacked s cfg, fun hf hssh => ?_, fun hf hmgr => ?_⟩
  · simp [run_ssh_unpack, hf, hssh]
  · simp [run_manager_unpack, hf, hmgr, manager_host_setup]

/-- C8 witness: the amended theorem at a fresh instance with ssh type. -/
theorem transition_fired_by_run_paths_witness :
    (make_host_script wFresh { type := some "ssh" }).1.host_unpacked = wFresh.host_unpacked ∧
    (run_ssh_unpack wFresh { type := some "ssh" }).host_unpacked
      = .pystr (make_host_unpack_script wFresh { type := some "ssh" }) :=
  ⟨(transition_fired_by_run_paths_not_composition wFresh { type := some "ssh" } .failed).1,
   (transition_fired_by_run_paths_not_composition wFresh { type := some "ssh" } .failed).2.1
     (by decide) (by decide)⟩

set_option maxRecDepth 4000 in
/-- C4 counterexample: with `terminate_after` set, type `ssh` and a
129-character instance name, `make_host_script` fails with the assertion
error, not with the unsupported-capability error the claim requires. -/
theorem long_instance_name_preempts_capability_check :
    (make_host_script wFresh
      { type := some "ssh", terminate_after := true, instance_name := some wLongName }).2
      = .error .assertionError ∧
    (make_host_script wFresh
      { type := some "ssh", terminate_after := true, instance_name := some wLongName }).2
      ≠ .error (.unsupportedCapability (some "ssh")) := by
  have e1 : (make_host_script wFresh
      { type := some "ssh", terminate_after := true, instance_name := some wLongName }).2
      = .error .assertionError := rfl
  refine ⟨e1, ?_⟩
  intro hcontra
  rw [e1] at hcontra
  simp at hcontra

/-- C4 (amended): whenever `terminate_after` is set with a type that has no
termination strategy and the (earlier) instance-name assertion passes, the
call fails with the unsupported-capability error naming that type, and the
instance — in particular `launch_script` — is returned unchanged. -/
theorem unsupported_terminate_fails_before_script (s : JState) (cfg : LaunchCfg)
    (hterm : cfg.terminate_after = true)
    (h1 : cfg.type ≠ some "ec2") (h2 : cfg.type ≠ some "gce")
    (hname : ∀ n, cfg.instance_name = some n → n.length ≤ 128) :
    make_host_script s cfg = (s, .error (.unsupportedCapability cfg.type)) := by
  have hok : instanceNameOk cfg.instance_name = true := by
    unfold instanceNameOk
    cases hn : cfg.instance_name with
    | none => rfl
    | some n =>
      by_cases hne : n = ""
      · simp [hne]
      · simp [hne, hname n hn]
  have hts : terminateSection cfg = .error (.unsupportedCapability cfg.type) := by
    unfold terminateSection
    rw [hterm]
    simp [h1, h2]
  unfold make_host_script
  rw [hok, hts]
  rfl

/-- C4 witness: `{type: "ssh", terminate_after: true}` fails with the
unsupported-capability error naming `ssh`, leaving the state unchanged. -/
theorem unsupported_terminate_fails_witness :
    make_host_script wFresh { type := some "ssh", terminate_after := true }
      = (wFresh, .error (.unsupportedCapability (some "ssh"))) :=
  unsupported_terminate_fails_before_script wFresh
    { type := some "ssh", terminate_after := true }
    rfl (by decide) (by decide) (fun n h => nomatch h)

set_option maxRecDepth 8000 in
/-- C3: for a mount list `[A, B]` with non-empty fragments and a falsy
unpack flag, any script `make_host_script` produces decomposes — for every
configuration — as A's host-setup fragment, then B's, then A's upload
fragment, then B's, then the runner setup, run and post fragments, then the
termination block, which is empty exactly when `terminate_after` is unset
and one of the two provider templates when it is set. -/
theorem make_host_script_fixed_order
    (A B : Mount) (s : JState) (cfg : LaunchCfg)
    (a b ua ub : String)
    (hA : A.host_setup = some a) (ha : a ≠ "")
    (hB : B.host_setup = some b) (hb : b ≠ "")
    (hUA : A.upload_script = some ua) (hua : ua ≠ "")
    (hUB : B.upload_script = some ub) (hub : ub ≠ "")
    (hm : s.mounts = [A, B])
    (hflag : s.host_unpacked.truthy = false)
    (script : String)
    (hok : (make_host_script s cfg).2 = .ok script) :
    ∃ tc q0 q1 q2 q3 q4 q5 q6 q7 q8 : List Char,
      script.data = q0 ++ a.data ++ q1 ++ b.data ++ q2 ++ ua.data ++ q3 ++ ub.data
          ++ q4 ++ s.runner.setup_script.data ++ q5 ++ s.runner.run_script.data
          ++ q6 ++ s.runner.post_script.data ++ q7 ++ tc ++ q8 ∧
      (cfg.terminate_after = false → tc = []) ∧
      (cfg.terminate_after = true →
        tc = (ec2_terminate cfg.delay).data ∨ tc = (gce_terminate cfg.delay).data) := by
  have hhs : hostSetupJoin s.mounts = a ++ "\n" ++ b := by
    rw [hm]
    simp [hostSetupJoin, fragmentsOf, hA, hB, ha, hb, pyJoin]
  have hus : uploadScriptJoin s.mounts = ua ++ "\n" ++ ub := by
    rw [hm]
    simp [uploadScriptJoin, fragmentsOf, hUA, hUB, hua, hub, pyJoin]
  unfold make_host_script at hok
  rw [hflag] at hok
  simp only [Bool.false_eq_true, if_false] at hok
  split at hok
  · exact absurd hok (by simp)
  · split at hok
    · exact absurd hok (by simp)
    · rename_i terminate_commands heq
      rw [Except.ok.injEq] at hok
      subst hok
      rw [hhs, hus]
      set LD := cfg.launch_dir.getD "~/jaynes-launch" with hLD
      set RC := orEmpty cfg.root_config with hRC
      set LS := dedent ("\n        mkdir -p " ++ LD
        ++ "\n        JAYNES_LAUNCH_DIR=" ++ LD ++ "\n        ") with hLS
      set ST := orEmpty cfg.setup with hST
      set TG := ec2TagSection cfg.type cfg.instance_name with hTG
      set PO := resolvePipeOut cfg.pipe_out LD with hPO
      refine ⟨terminate_commands.data,
        ('#' :: ("!/bin/bash\n# to allow process substitution\nset +o posix\n"
          ++ RC ++ "\n" ++ LS ++ "\n\x7b\n            # launch.setup script\n            "
          ++ ST ++ "\n" ++ TG ++ "\n" : String).data),
        ("\n" : String).data,
        ("\n            # upload_script from within the host.\n" : String).data,
        ("\n" : String).data,
        ("\n            # runner.setup script\n" : String).data,
        ("\n            # run script\n" : String).data,
        ("\n            # post script\n" : String).data,
        ("\n" : String).data,
        (("\n" : String).data ++ '\x7d' :: rstripAux ((" " ++ PO ++ "\n" : String).data)),
        ?_, ?_, ?_⟩
      · have harg : ("\n#" ++ "!/bin/bash\n# to allow process substitution\nset +o posix\n"
            ++ RC ++ "\n" ++ LS ++ "\n\x7b\n            # launch.setup script\n            "
            ++ ST ++ "\n" ++ TG ++ "\n" ++ (a ++ "\n" ++ b)
            ++ "\n            # upload_script from within the host.\n" ++ (ua ++ "\n" ++ ub)
            ++ "\n            # runner.setup script\n" ++ s.runner.setup_script
            ++ "\n            # run script\n" ++ s.runner.run_script
            ++ "\n            # post script\n" ++ s.runner.post_script
            ++ "\n" ++ terminate_commands ++ "\n" ++ "\x7d" ++ " " ++ PO ++ "\n")
          = "\n#" ++ ("!/bin/bash\n# to allow process substitution\nset +o posix\n"
            ++ RC ++ "\n" ++ LS ++ "\n\x7b\n            # launch.setup script\n            "
            ++ ST ++ "\n" ++ TG ++ "\n" ++ (a ++ "\n" ++ b)
            ++ "\n            # upload_script from within the host.\n" ++ (ua ++ "\n" ++ ub)
            ++ "\n            # runner.setup script\n" ++ s.runner.setup_script
            ++ "\n            # run script\n" ++ s.runner.run_script
            ++ "\n            # post script\n" ++ s.runner.post_script
            ++ "\n" ++ terminate_commands ++ "\n")
            ++ "\x7d" ++ (" " ++ PO ++ "\n") := by
          apply String.ext
          simp [String.data_append, List.append_assoc]
        rw [harg, pyStrip_decomp]
        simp [String.data_append, List.append_assoc]
      · intro hF
        unfold terminateSection at heq
        rw [hF] at heq
        simp only [Bool.false_eq_true, if_false, Except.ok.injEq] at heq
        rw [← heq]
      · intro hT
        unfold terminateSection at heq
        rw [hT] at heq
        by_cases he : cfg.type = some "ec2"
        · simp [he] at heq
          left
          rw [← heq]
        · by_cases hg : cfg.type = some "gce"
          · simp [he, hg] at heq
            right
            rw [← heq]
          · simp [he, hg] at heq

set_option maxRecDepth 8000 in
/-- C3 witness: the decomposition at the two concrete fixture mounts and an
ssh configuration. -/
theorem make_host_script_fixed_order_witness :
    ∃ tc q0 q1 q2 q3 q4 q5 q6 q7 q8 : List Char,
      wScript.data = q0 ++ ("echo a-setup" : String).data ++ q1
          ++ ("echo b-setup" : String).data ++ q2 ++ ("echo a-upload" : String).data
          ++ q3 ++ ("echo b-upload" : String).data
          ++ q4 ++ wFresh.runner.setup_script.data ++ q5 ++ wFresh.runner.run_script.data
          ++ q6 ++ wFresh.runner.post_script.data ++ q7 ++ tc ++ q8 ∧
      (({ type := some "ssh" } : LaunchCfg).terminate_after = false → tc = []) ∧
      (({ type := some "ssh" } : LaunchCfg).terminate_after = true →
        tc = (ec2_terminate none).data ∨ tc = (gce_terminate none).data) :=
  make_host_script_fixed_order wMountA wMountB wFresh { type := some "ssh" }
    "echo a-setup" "echo b-setup" "echo a-upload" "echo b-upload"
    rfl (by decide) rfl (by decide) rfl (by decide) rfl (by decide) rfl rfl wScript rfl

/-- C6: a runner option string referencing a name absent from the context
fails with a bare `KeyError` naming only the missing key and *without* the
field/context diagnostic the claim requires (the `except IndexError` clause
prints the diagnostic only for positional fields, as the second conjunct
shows at the failing input `"\x7b\x7d"`). -/
theorem missing_key_reported_without_diagnostic :
    hydrateKwargs [("seed", "10")] [("cmd", RVal.rstr "\x7bmissing_field\x7d")]
      = .error { err := .keyError "missing_field", diag := none } ∧
    hydrateKwargs [("seed", "10")] [("cmd", RVal.rstr "\x7b\x7d")]
      = .error { err := .indexError,
                 diag := some ("cmd", "\x7b\x7d", [("seed", "10")]) } := by
  exact ⟨rfl, rfl⟩

/-- C7 counterexample: with no `.jaynes.yml` found anywhere, `config()`
returns normally with the printed note — the outcome is the diagnostic
early return, not any raised error. -/
theorem config_not_found_is_not_an_error :
    (configCall {} none none none none none ⟨[], 0⟩ []).2 = .earlyNoConfig ∧
    CfgOutcome.isErr (configCall {} none none none none none ⟨[], 0⟩ []).2 = false := by
  exact ⟨rfl, rfl⟩

/-- C7 (amended): when no configuration document is found (no explicit path
and the ancestor walk yields nothing) on a state without a loaded `RUN.J`,
`config()` prints the not-found note and returns: `RUN.mode` is set, nothing
else changes, and no exception is raised. -/
theorem config_not_found_prints_and_returns (st : RunState) (mode : Option String)
    (runnerOv launchOv : Option Dict) (parsed : Heap × Nat) (ctx : Dict)
    (hJ : st.hasJ = false) :
    configCall st mode none runnerOv launchOv none parsed ctx
      = ({ st with mode := mode }, .earlyNoConfig) ∧
    CfgOutcome.isErr (configCall st mode none runnerOv launchOv none parsed ctx).2
      = false := by
  have h1 : configCall st mode none runnerOv launchOv none parsed ctx
      = ({ st with mode := mode }, .earlyNoConfig) := by
    unfold configCall
    simp [hJ]
  refine ⟨h1, ?_⟩
  rw [h1]
  rfl

/-- C7 witness: the amended theorem at the empty initial state. -/
theorem config_not_found_prints_and_returns_witness :
    configCall {} (some "m") none none none none ⟨[], 0⟩ []
      = ({ mode := some "m" }, .earlyNoConfig) ∧
    CfgOutcome.isErr (configCall {} (some "m") none none none none ⟨[], 0⟩ []).2
      = false :=
  config_not_found_prints_and_returns {} (some "m") none none ⟨[], 0⟩ [] rfl

/-- C5 counterexample: the claim fails at two concrete documents.  First, a
document with no `modes` key at all (hence no `"local"` entry) resolved
with mode `"local"` neither fails with the unknown-mode error nor applies
any mode entry — it returns early with the plain document copy.  Second, a
document whose `run` block is present but *empty*, resolved with no mode,
does not apply the run block over the root defaults: it fails with the
missing-default assertion (`assert run`) even though a `run` block
exists. -/
theorem local_mode_skips_mode_resolution :
    getk (heapGet wLoaded.heap 0) "modes" = none ∧
    (configCall wLoaded (some "local") none none none none ⟨[], 0⟩ []).2
      = .earlyLocal ∧
    (configCall wLoaded (some "local") none none none none ⟨[], 0⟩ []).1.config
      = some [("run", PV.ref 1)] ∧
    getk (heapGet wLoadedEmptyRun.heap 0) "run" = some (PV.ref 1) ∧
    (configCall wLoadedEmptyRun none none none none none ⟨[], 0⟩ []).2
      = .errMissingRunDefault := by
  exact ⟨rfl, rfl, rfl, rfl, rfl⟩

/-- C5 (amended): with a loaded document — no overrides — resolution with no
mode fails with the missing-default assertion when the `run` block is
absent *and also* when it is present but empty, and applies the `run` block
over the root copy when it is present and non-empty; resolution with a
named mode other than `"local"` fails with the unknown-mode `KeyError`
whenever the modes dict (which defaults to the empty dict when the document
has no `modes` key at all) has no entry of that name, and otherwise applies
that entry over the root copy; mode `"local"` short-circuits with the plain
root copy and no failure. -/
theorem config_resolution_precedence (st : RunState) (raw : Dict) (r : Nat)
    (ctx : Dict)
    (hJ : st.hasJ = true) (hraw : st.rawAddr = some r)
    (hdoc : heapGet st.heap r = raw) :
    (getk raw "run" = none →
      (configCall st none none none none none ⟨[], 0⟩ ctx).2
        = .errMissingRunDefault) ∧
    (∀ ar, getk raw "run" = some (.ref ar) → heapGet st.heap ar = [] →
      (configCall st none none none none none ⟨[], 0⟩ ctx).2
        = .errMissingRunDefault) ∧
    (∀ ar rd, getk raw "run" = some (.ref ar) → heapGet st.heap ar = rd → rd ≠ [] →
      configCall st none none none none none ⟨[], 0⟩ ctx
        = ({ st with mode := none, config := some (dictUpdate (dictUpdate raw rd) ctx) }, .done)) ∧
    (∀ m, m ≠ "local" → getk (modesDictOf st.heap raw) m = none →
      (configCall st (some m) none none none none ⟨[], 0⟩ ctx).2
        = .errUnknownMode m) ∧
    (∀ m a2 d2, m ≠ "local" → getk (modesDictOf st.heap raw) m = some (.ref a2) →
      heapGet st.heap a2 = d2 →
      configCall st (some m) none none none none ⟨[], 0⟩ ctx
        = ({ st with mode := some m, config := some (dictUpdate (dictUpdate raw d2) ctx) }, .done)) ∧
    (configCall st (some "local") none none none none ⟨[], 0⟩ ctx
      = ({ st with mode := some "local", config := some raw }, .earlyLocal)) := by
  refine ⟨?_, ?_, ?_, ?_, ?_, ?_⟩
  · intro h1
    unfold configCall resolvePhase
    simp [hJ, hraw, hdoc, h1]
  · intro ar h1 h2
    unfold configCall resolvePhase
    simp [hJ, hraw, hdoc, h1, h2]
  · intro ar rd h1 h2 h3
    have h3e : rd.isEmpty = false := by
      cases rd with
      | nil => exact absurd rfl h3
      | cons x xs => rfl
    unfold configCall resolvePhase applyRunnerOverride applyLaunchOverride
    simp [hJ, hraw, hdoc, h1, h2, h3e]
  · intro m hlocal h3
    unfold configCall resolvePhase
    simp [hJ, hraw, hdoc, hlocal, h3]
  · intro m a2 d2 hlocal h3 h4
    unfold configCall resolvePhase applyRunnerOverride applyLaunchOverride
    simp [hJ, hraw, hdoc, hlocal, h3, h4]
  · unfold configCall resolvePhase
    simp [hJ, hraw, hdoc]

/-- C5 witness: resolving the fixture document with no mode applies its
`run` block over the root copy. -/
theorem config_resolution_precedence_witness :
    configCall wLoaded none none none none none ⟨[], 0⟩ []
      = ({ wLoaded with mode := none, config := some (dictUpdate (dictUpdate [("run", PV.ref 1)] [("launch", PV.ref 2)]) []) }, .done) :=
  (config_resolution_precedence wLoaded [("run", PV.ref 1)] 0 [] rfl rfl rfl).2.2.1
    1 [("launch", PV.ref 2)] rfl rfl (by decide)

/-- C9: the first call's `launch` override is written through the shared
reference into the raw document's nested launch dict (no copy is taken,
unlike the runner branch), so the second call — with no override — rebuilds
its merged configuration from the mutated document and still sees `dry`. -/
theorem launch_override_mutates_raw_document :
    heapGet wCall1.heap 2 = [("type", PV.prim "ssh"), ("dry", PV.prim "True")] ∧
    getk (configLaunchDict wCall2) "dry" = some (PV.prim "True") := by
  exact ⟨rfl, rfl⟩
